import Mathlib

/-
Shallow embedding of the core of the trading-platform backend:
the `CandleAggregator` (backend/src/websocket/aggregator.ts, bundled in
src/api/handlers/index.ts), the `RoomBroadcaster`
(src/services/broadcaster.ts) and the `subscribe` message handler
(backend/src/api/handlers/candles.ts).

Modelling conventions:
- `time` values are UTC epoch milliseconds, modelled as `Int`
  (`new Date(x).getTime()` in the source).
- JS numeric price/volume fields are modelled as exact integers; the
  claims under study only combine them with `+`, `max`, `min` and
  comparisons, on which exact arithmetic agrees with the source for all
  concrete inputs used here.
- A JS `Map<string, V>` is modelled as a total function `String → Option V`
  (or with a default, where the source itself supplies the default).
- A JS `Set` is modelled as a duplicate-free `List` in insertion order
  (`setAdd` appends only when absent, `setDelete` erases).
- `Array.prototype.sort` with the comparator
  `(a, b) => new Date(a.time).getTime() - new Date(b.time).getTime()`
  is a stable sort by `time`, modelled by `List.mergeSort`.
- The ambient wall clock `new Date()` is passed explicitly as a `now`
  argument.
-/

namespace Backend

/-- A candle record (backend types.ts `Candle`): `time`, OHLC, `volume`,
optional `quoteVolume`. -/
structure Candle where
  time : Int
  open_ : Int
  high : Int
  low : Int
  close : Int
  volume : Int
  quoteVolume : Option Int
deriving DecidableEq, Repr

/-- `MAX_1M_CANDLES = 1440` from `CandleAggregator`. -/
def MAX_1M_CANDLES : Nat := 1440

/-- Comparator used by the source's sorts: ascending candle `time`. -/
def timeLe (a b : Candle) : Prop := a.time ≤ b.time

instance : DecidableRel timeLe :=
  fun a b => inferInstanceAs (Decidable (a.time ≤ b.time))

instance : IsTotal Candle timeLe := ⟨fun a b => le_total a.time b.time⟩

instance : IsTrans Candle timeLe := ⟨fun _ _ _ h1 h2 => le_trans h1 h2⟩

/-- `[...candles].sort((a, b) => timeA - timeB)`: a stable sort by `time`
(ECMAScript sorts are stable, so the comparator determines the result
uniquely; insertion sort realizes it). -/
def sortByTime (candles : List Candle) : List Candle :=
  List.insertionSort timeLe candles

/-- The aggregator's `oneMinuteCandles` map; a symbol with no entry is
read back as the empty window (`get(symbol) || []`). -/
def AggregatorState : Type := String → List Candle

/-- Body of `processOneMinuteCandle` acting on one symbol's window:
if the tail candle exists and has the same `time`, overwrite it in place;
otherwise push the candle and, if the window now exceeds
`MAX_1M_CANDLES`, shift the head off. -/
def updateWindow (candles : List Candle) (candle : Candle) : List Candle :=
  if candles.getLast?.map Candle.time = some candle.time then
    candles.dropLast ++ [candle]
  else if MAX_1M_CANDLES < (candles ++ [candle]).length then
    (candles ++ [candle]).tail
  else candles ++ [candle]

/-- `CandleAggregator.processOneMinuteCandle(symbol, candle)`. -/
def processOneMinuteCandle (st : AggregatorState) (symbol : String)
    (candle : Candle) : AggregatorState :=
  fun s => if s = symbol then updateWindow (st symbol) candle else st s

/-- Body of `initializeCandles` for one symbol: sort the input by `time`
and keep the last `min(length, MAX_1M_CANDLES)` elements
(`sortedCandles.slice(-limit)`). -/
def initWindow (candles : List Candle) : List Candle :=
  let sortedCandles := sortByTime candles
  let limit := min sortedCandles.length MAX_1M_CANDLES
  sortedCandles.drop (sortedCandles.length - limit)

/-- `CandleAggregator.initializeCandles(symbol, candles)`. -/
def initializeCandles (st : AggregatorState) (symbol : String)
    (candles : List Candle) : AggregatorState :=
  fun s => if s = symbol then initWindow candles else st s

/-- `CandleAggregator.getOneMinuteCandles(symbol)`:
`this.oneMinuteCandles.get(symbol) || []`. -/
def getOneMinuteCandles (st : AggregatorState) (symbol : String) : List Candle :=
  st symbol

/-- The `INTERVAL_TO_MS` record from types.ts; a miss is `undefined`,
modelled as `none`. -/
def INTERVAL_TO_MS (interval : String) : Option Int :=
  if interval = "1m" then some 60000
  else if interval = "5m" then some 300000
  else if interval = "15m" then some 900000
  else if interval = "1h" then some 3600000
  else if interval = "4h" then some 14400000
  else if interval = "1D" then some 86400000
  else if interval = "1W" then some 604800000
  else none

/-- `getIntervalStart(time, intervalMs)`:
`Math.floor(timestamp / intervalMs) * intervalMs`. -/
def getIntervalStart (timestamp intervalMs : Int) : Int :=
  (Int.fdiv timestamp intervalMs) * intervalMs

/-- `Math.max(...)` over a spread of a non-empty list; the source never
applies it to an empty list (the `[]` case is unreachable there). -/
def listMax : List Int → Int
  | [] => 0
  | [x] => x
  | x :: y :: xs => max x (listMax (y :: xs))

/-- `Math.min(...)` over a spread of a non-empty list; the source never
applies it to an empty list (the `[]` case is unreachable there). -/
def listMin : List Int → Int
  | [] => 0
  | [x] => x
  | x :: y :: xs => min x (listMin (y :: xs))

/-- `CandleAggregator.aggregateCandles(candles, startTime)`: sort the
contributors by `time`, then take `open` from the first, `close` from the
last, extrema of `high`/`low`, and sums of `volume` and of
`quoteVolume || 0`. -/
def aggregateCandles (candles : List Candle) (startTime : Int) : Candle :=
  let sorted := sortByTime candles
  { time := startTime
    open_ := (sorted.head?.map Candle.open_).getD 0
    high := listMax (sorted.map Candle.high)
    low := listMin (sorted.map Candle.low)
    close := (sorted.getLast?.map Candle.close).getD 0
    volume := sorted.foldl (fun sum c => sum + c.volume) 0
    quoteVolume := some (sorted.foldl (fun sum c => sum + c.quoteVolume.getD 0) 0) }

/-- Membership test of the filter inside `getAggregatedCandle`:
`candleTime >= currentIntervalStart && candleTime < currentIntervalStart + intervalMs`. -/
def inCurrentInterval (currentIntervalStart intervalMs : Int) (c : Candle) : Bool :=
  decide (currentIntervalStart ≤ c.time) && decide (c.time < currentIntervalStart + intervalMs)

/-- The `intervalCandles` local of `getAggregatedCandle`: the window
candles belonging to the bar of width `intervalMs` containing `now`. -/
def currentBarCandles (st : AggregatorState) (symbol : String)
    (now intervalMs : Int) : List Candle :=
  (st symbol).filter (inCurrentInterval (getIntervalStart now intervalMs) intervalMs)

/-- `CandleAggregator.getAggregatedCandle(symbol, interval)`, with the
wall clock `new Date()` passed explicitly as `now`. For `"1m"` it returns
the tail of the window when non-empty; otherwise it resolves the interval
width, filters the window to the bar containing `now` and aggregates. -/
def getAggregatedCandle (st : AggregatorState) (symbol interval : String)
    (now : Int) : Option Candle :=
  if interval = "1m" then
    (st symbol).getLast?
  else
    match INTERVAL_TO_MS interval with
    | none => none
    | some intervalMs =>
      if (st symbol).isEmpty then none
      else if (currentBarCandles st symbol now intervalMs).isEmpty then none
      else some (aggregateCandles (currentBarCandles st symbol now intervalMs)
        (getIntervalStart now intervalMs))

/- ------------------------------------------------------------------ -/
/- Room broadcaster (src/services/broadcaster.ts)                      -/
/- ------------------------------------------------------------------ -/

/-- Session handles are compared by object identity in the source; an
opaque identifier suffices. -/
abbrev ClientId : Type := Nat

/-- A `(symbol, interval)` subscription. -/
structure Subscription where
  symbol : String
  interval : String
deriving DecidableEq, Repr

/-- `getRoomKey(subscription)`. -/
def getRoomKey (subscription : Subscription) : String :=
  subscription.symbol ++ ":" ++ subscription.interval

/-- A broadcaster room (types.ts `Room`), with `clients` as an
insertion-ordered duplicate-free list standing for the JS `Set`. -/
structure Room where
  key : String
  subscription : Subscription
  clients : List ClientId
  currentCandle : Option Candle
  lastBroadcast : Int
deriving DecidableEq, Repr

/-- JS `Set.add`: append when absent. -/
def setAdd {α : Type} [DecidableEq α] (l : List α) (a : α) : List α :=
  if a ∈ l then l else l ++ [a]

/-- JS `Set.delete`. -/
def setDelete {α : Type} [DecidableEq α] (l : List α) (a : α) : List α :=
  l.erase a

/-- The broadcaster's room registry (`rooms : Map<string, Room>`)
together with each client's `subscriptions` set of room keys. -/
structure BroadcasterState where
  rooms : String → Option Room
  subscriptions : ClientId → List String

/-- The broadcaster before any client joins. -/
def emptyBroadcaster : BroadcasterState where
  rooms := fun _ => none
  subscriptions := fun _ => []

/-- `RoomBroadcaster.addClientToRoom(client, subscription)`: create the
room if absent, add the client to it, record the key in the client's
subscription set. -/
def addClientToRoom (st : BroadcasterState) (client : ClientId)
    (subscription : Subscription) : BroadcasterState :=
  let roomKey := getRoomKey subscription
  let room :=
    match st.rooms roomKey with
    | some r => r
    | none =>
        { key := roomKey, subscription := subscription, clients := [],
          currentCandle := none, lastBroadcast := 0 }
  let room := { room with clients := setAdd room.clients client }
  { rooms := fun k => if k = roomKey then some room else st.rooms k
    subscriptions := fun c =>
      if c = client then setAdd (st.subscriptions client) roomKey
      else st.subscriptions c }

/-- `RoomBroadcaster.removeClientFromRoom(client, subscription)`: if the
room exists, delete the client from it and the key from the client's set,
and delete the room when it becomes empty. -/
def removeClientFromRoom (st : BroadcasterState) (client : ClientId)
    (subscription : Subscription) : BroadcasterState :=
  let roomKey := getRoomKey subscription
  match st.rooms roomKey with
  | none => st
  | some r =>
      let room := { r with clients := setDelete r.clients client }
      { rooms := fun k =>
          if k = roomKey then
            if room.clients.length = 0 then none else some room
          else st.rooms k
        subscriptions := fun c =>
          if c = client then setDelete (st.subscriptions client) roomKey
          else st.subscriptions c }

/-- One iteration of the loop body of `removeClientFromAllRooms`:
remove the client from the room under `roomKey` (if any) and delete the
room when it becomes empty. -/
def removeFromRoomKey (client : ClientId) (st : BroadcasterState)
    (roomKey : String) : BroadcasterState :=
  match st.rooms roomKey with
  | none => st
  | some r =>
      let room := { r with clients := setDelete r.clients client }
      { st with rooms := fun k =>
          if k = roomKey then
            if room.clients.length = 0 then none else some room
          else st.rooms k }

/-- `RoomBroadcaster.removeClientFromAllRooms(client)`: walk the client's
subscription set, removing it from each room, then clear the set. -/
def removeClientFromAllRooms (st : BroadcasterState) (client : ClientId) :
    BroadcasterState :=
  let st' := (st.subscriptions client).foldl (removeFromRoomKey client) st
  { st' with subscriptions := fun c =>
      if c = client then [] else st'.subscriptions c }

/-- `RoomBroadcaster.updateRoomCandle(symbol)`: for every registered room
whose subscription symbol matches, query the aggregator and overwrite
`currentCandle` only when a candle is returned. -/
def updateRoomCandle (st : BroadcasterState) (agg : AggregatorState)
    (now : Int) (symbol : String) : BroadcasterState :=
  { st with rooms := fun k =>
      (st.rooms k).map (fun room =>
        if room.subscription.symbol = symbol then
          match getAggregatedCandle agg symbol room.subscription.interval now with
          | some candle => { room with currentCandle := some candle }
          | none => room
        else room) }

/-- The membership operations of the broadcaster, for stating
registry invariants over arbitrary operation sequences. -/
inductive BroadcasterOp where
  | join (client : ClientId) (subscription : Subscription)
  | leave (client : ClientId) (subscription : Subscription)
  | leaveAll (client : ClientId)

/-- Apply one membership operation. -/
def applyBroadcasterOp (st : BroadcasterState) : BroadcasterOp → BroadcasterState
  | .join c s => addClientToRoom st c s
  | .leave c s => removeClientFromRoom st c s
  | .leaveAll c => removeClientFromAllRooms st c

/-- Run a sequence of membership operations from the empty broadcaster. -/
def runBroadcasterOps (ops : List BroadcasterOp) : BroadcasterState :=
  ops.foldl applyBroadcasterOp emptyBroadcaster

/- ------------------------------------------------------------------ -/
/- Aggregator operation sequences (per-symbol window)                  -/
/- ------------------------------------------------------------------ -/

/-- The mutating aggregator operations on one symbol's window (the map
entries for distinct symbols are independent in the source). -/
inductive AggregatorOp where
  | ingest (candle : Candle)
  | init (candles : List Candle)

/-- Apply one aggregator operation to a window. -/
def applyAggregatorOp (w : List Candle) : AggregatorOp → List Candle
  | .ingest c => updateWindow w c
  | .init cs => initWindow cs

/-- Run a sequence of aggregator operations from the empty window. -/
def runWindow (ops : List AggregatorOp) : List Candle :=
  ops.foldl applyAggregatorOp []

/-- Windows whose candle `time`s are non-decreasing from head to tail. -/
def TimeSorted (w : List Candle) : Prop :=
  w.Pairwise timeLe

instance (w : List Candle) : Decidable (TimeSorted w) := by
  unfold TimeSorted; infer_instance

/- ------------------------------------------------------------------ -/
/- Subscribe handler (backend/src/api/handlers/candles.ts)             -/
/- ------------------------------------------------------------------ -/

/-- `VALID_INTERVALS` from types.ts. -/
def VALID_INTERVALS : List String := ["1m", "5m", "15m", "1h", "4h", "1D", "1W"]

/-- The fields of a `subscribe` message; `initialBars` is optional and
`none` models an omitted field (`undefined`). -/
structure SubscribeMessage where
  symbol : String
  interval : String
  initialBars : Option Int
deriving DecidableEq, Repr

/-- Observable outcome of `handleSubscribe`: either an `error` reply, or
joining the room and fetching `limit` historical bars. -/
inductive SubscribeAction where
  | sendError (message : String)
  | joinAndFetch (symbol interval : String) (limit : Int)
deriving DecidableEq, Repr

/-- `handleSubscribe(client, message)`: destructure with
`initialBars = 100` as default, validate `interval` against
`VALID_INTERVALS` and `symbol` against the allow-list, then join the room
and fetch `initialBars` historical candles (passed through unchanged). -/
def handleSubscribe (message : SubscribeMessage) : SubscribeAction :=
  let initialBars := message.initialBars.getD 100
  if !(VALID_INTERVALS.contains message.interval) then
    .sendError ("Invalid interval: " ++ message.interval ++ ". Valid: " ++
      String.intercalate ", " VALID_INTERVALS)
  else if message.symbol ≠ "BTC/USDT" then
    .sendError ("Invalid symbol: " ++ message.symbol ++ ". Only BTC/USDT is supported.")
  else
    .joinAndFetch message.symbol message.interval initialBars

/- ------------------------------------------------------------------ -/
/- Helper lemmas                                                       -/
/- ------------------------------------------------------------------ -/

lemma sortByTime_perm (l : List Candle) : (sortByTime l).Perm l :=
  List.perm_insertionSort timeLe l

lemma length_sortByTime (l : List Candle) : (sortByTime l).length = l.length :=
  (sortByTime_perm l).length_eq

lemma timeSorted_sortByTime (l : List Candle) : TimeSorted (sortByTime l) :=
  List.sorted_insertionSort timeLe l

lemma sortByTime_of_timeSorted {l : List Candle} (h : TimeSorted l) :
    sortByTime l = l :=
  List.Sorted.insertionSort_eq h

lemma time_le_getLast_of_timeSorted {w : List Candle} {tail : Candle}
    (hs : TimeSorted w) (hl : w.getLast? = some tail) :
    ∀ a ∈ w, a.time ≤ tail.time := by
  have hne : w ≠ [] := by
    intro e; subst e; simp at hl
  have hw : w.dropLast ++ [w.getLast hne] = w := List.dropLast_append_getLast hne
  have htail : w.getLast hne = tail := by
    rw [List.getLast?_eq_getLast w hne] at hl
    exact Option.some.inj hl
  intro a ha
  rw [← hw] at hs ha
  rcases List.mem_append.mp ha with h1 | h2
  · have := (List.pairwise_append.mp hs).2.2 a h1 (w.getLast hne) (by simp)
    rwa [htail] at this
  · have h2' : a = w.getLast hne := by simpa using h2
    rw [h2', htail]

lemma head_time_le_of_timeSorted {w : List Candle} (hs : TimeSorted w)
    (h : w ≠ []) : ∀ a ∈ w, (w.head h).time ≤ a.time := by
  cases w with
  | nil => exact absurd rfl h
  | cons x xs =>
    intro a ha
    rcases List.mem_cons.mp ha with rfl | ha'
    · simp
    · simpa using (List.pairwise_cons.mp hs).1 a ha'

lemma le_listMax : ∀ (l : List Int), ∀ x ∈ l, x ≤ listMax l
  | [], x, hx => by simp at hx
  | [a], x, hx => by
      simp only [List.mem_singleton] at hx
      simp [listMax, hx]
  | a :: b :: t, x, hx => by
      simp only [listMax]
      rcases List.mem_cons.mp hx with rfl | h
      · exact le_max_left _ _
      · exact le_trans (le_listMax (b :: t) x h) (le_max_right _ _)

lemma listMax_mem : ∀ (l : List Int), l ≠ [] → listMax l ∈ l
  | [], h => absurd rfl h
  | [a], _ => by simp [listMax]
  | a :: b :: t, _ => by
      simp only [listMax]
      rcases max_choice a (listMax (b :: t)) with he | he
      · rw [he]; exact List.mem_cons_self a _
      · rw [he]
        exact List.mem_cons_of_mem a (listMax_mem (b :: t) (by simp))

lemma listMin_le : ∀ (l : List Int), ∀ x ∈ l, listMin l ≤ x
  | [], x, hx => by simp at hx
  | [a], x, hx => by
      simp only [List.mem_singleton] at hx
      simp [listMin, hx]
  | a :: b :: t, x, hx => by
      simp only [listMin]
      rcases List.mem_cons.mp hx with rfl | h
      · exact min_le_left _ _
      · exact le_trans (min_le_right _ _) (listMin_le (b :: t) x h)

lemma listMin_mem : ∀ (l : List Int), l ≠ [] → listMin l ∈ l
  | [], h => absurd rfl h
  | [a], _ => by simp [listMin]
  | a :: b :: t, _ => by
      simp only [listMin]
      rcases min_choice a (listMin (b :: t)) with he | he
      · rw [he]; exact List.mem_cons_self a _
      · rw [he]
        exact List.mem_cons_of_mem a (listMin_mem (b :: t) (by simp))

lemma length_updateWindow (w : List Candle) (c : Candle)
    (h : w.length ≤ MAX_1M_CANDLES) :
    (updateWindow w c).length ≤ MAX_1M_CANDLES := by
  unfold updateWindow MAX_1M_CANDLES at *
  split
  · simp only [List.length_append, List.length_dropLast, List.length_singleton]
    omega
  · split
    · simp only [List.length_tail, List.length_append, List.length_singleton]
      omega
    · simp only [List.length_append, List.length_singleton] at *
      omega

lemma length_initWindow (cs : List Candle) :
    (initWindow cs).length ≤ MAX_1M_CANDLES := by
  unfold initWindow MAX_1M_CANDLES
  simp only [List.length_drop]
  omega

lemma timeSorted_initWindow (cs : List Candle) : TimeSorted (initWindow cs) := by
  unfold initWindow
  exact List.Pairwise.sublist (List.drop_sublist _ _) (timeSorted_sortByTime cs)

lemma timeSorted_updateWindow_of_le {w : List Candle} {c tail : Candle}
    (hs : TimeSorted w) (hl : w.getLast? = some tail)
    (hle : tail.time ≤ c.time) : TimeSorted (updateWindow w c) := by
  have hmem : ∀ a ∈ w, a.time ≤ c.time := by
    intro a ha
    exact le_trans (time_le_getLast_of_timeSorted hs hl a ha) hle
  have hpush : TimeSorted (w ++ [c]) := by
    refine List.pairwise_append.mpr ⟨hs, List.pairwise_singleton _ _, ?_⟩
    intro a ha b hb
    have hb' : b = c := by simpa using hb
    rw [hb']
    exact hmem a ha
  unfold updateWindow
  split
  · refine List.pairwise_append.mpr
      ⟨List.Pairwise.sublist (List.dropLast_sublist w) hs,
       List.pairwise_singleton _ _, ?_⟩
    intro a ha b hb
    have hb' : b = c := by simpa using hb
    rw [hb']
    exact hmem a (List.Sublist.mem ha (List.dropLast_sublist w))
  · split
    · exact List.Pairwise.sublist (List.tail_sublist _) hpush
    · exact hpush

lemma timeSorted_updateWindow_nil (c : Candle) : TimeSorted (updateWindow [] c) := by
  simp [updateWindow, MAX_1M_CANDLES, TimeSorted]

lemma updateWindow_same_time (w : List Candle) (c1 c2 : Candle)
    (h : c1.time = c2.time) :
    updateWindow (updateWindow w c1) c2 = updateWindow w c2 := by
  have hconcat : ∀ (l : List Candle),
      (l ++ [c1]).getLast?.map Candle.time = some c2.time := by
    intro l
    rw [List.getLast?_concat]
    simp [h]
  by_cases hc : w.getLast?.map Candle.time = some c1.time
  · have hc2 : w.getLast?.map Candle.time = some c2.time := by rw [← h]; exact hc
    have h1 : updateWindow w c1 = w.dropLast ++ [c1] := by
      unfold updateWindow
      rw [if_pos hc]
    rw [h1]
    unfold updateWindow
    rw [if_pos (hconcat _), if_pos hc2, List.dropLast_concat]
  · have hc2 : ¬ w.getLast?.map Candle.time = some c2.time := by rw [← h]; exact hc
    by_cases hlen : MAX_1M_CANDLES < (w ++ [c1]).length
    · have hw : w ≠ [] := by
        intro e
        subst e
        simp [MAX_1M_CANDLES] at hlen
      have h1 : updateWindow w c1 = w.tail ++ [c1] := by
        unfold updateWindow
        rw [if_neg hc, if_pos hlen, List.tail_append_of_ne_nil hw]
      have hlen2 : MAX_1M_CANDLES < (w ++ [c2]).length := by
        simpa using hlen
      rw [h1]
      unfold updateWindow
      rw [if_pos (hconcat _), List.dropLast_concat, if_neg hc2, if_pos hlen2,
          List.tail_append_of_ne_nil hw]
    · have h1 : updateWindow w c1 = w ++ [c1] := by
        unfold updateWindow
        rw [if_neg hc, if_neg hlen]
      have hlen2 : ¬ MAX_1M_CANDLES < (w ++ [c2]).length := by
        simpa using hlen
      rw [h1]
      unfold updateWindow
      rw [if_pos (hconcat _), List.dropLast_concat, if_neg hc2, if_neg hlen2]

/-- Registry invariant: every registered room has at least one client. -/
def RoomsNonempty (st : BroadcasterState) : Prop :=
  ∀ k r, st.rooms k = some r → r.clients ≠ []

lemma setAdd_ne_nil {α : Type} [DecidableEq α] (l : List α) (a : α) :
    setAdd l a ≠ [] := by
  unfold setAdd
  split
  · rename_i hmem
    intro e
    rw [e] at hmem
    simp at hmem
  · simp

lemma roomsNonempty_addClientToRoom {st : BroadcasterState}
    (h : RoomsNonempty st) (c : ClientId) (sub : Subscription) :
    RoomsNonempty (addClientToRoom st c sub) := by
  intro k r hr
  simp only [addClientToRoom] at hr
  split at hr
  · cases Option.some.inj hr
    exact setAdd_ne_nil _ _
  · exact h k r hr

lemma roomsNonempty_removeClientFromRoom {st : BroadcasterState}
    (h : RoomsNonempty st) (c : ClientId) (sub : Subscription) :
    RoomsNonempty (removeClientFromRoom st c sub) := by
  intro k r hr
  simp only [removeClientFromRoom] at hr
  split at hr
  · exact h k r hr
  · simp only at hr
    split at hr
    · split at hr
      · cases hr
      · rename_i hlen
        cases Option.some.inj hr
        simpa [List.length_eq_zero] using hlen
    · exact h k r hr

lemma roomsNonempty_removeFromRoomKey {st : BroadcasterState}
    (h : RoomsNonempty st) (c : ClientId) (key : String) :
    RoomsNonempty (removeFromRoomKey c st key) := by
  intro k r hr
  simp only [removeFromRoomKey] at hr
  split at hr
  · exact h k r hr
  · simp only at hr
    split at hr
    · split at hr
      · cases hr
      · rename_i hlen
        cases Option.some.inj hr
        simpa [List.length_eq_zero] using hlen
    · exact h k r hr

lemma roomsNonempty_foldl_removeFromRoomKey (c : ClientId) :
    ∀ (keys : List String) (st : BroadcasterState), RoomsNonempty st →
      RoomsNonempty (keys.foldl (removeFromRoomKey c) st)
  | [], _, h => h
  | key :: keys, _, h =>
      roomsNonempty_foldl_removeFromRoomKey c keys _
        (roomsNonempty_removeFromRoomKey h c key)

lemma roomsNonempty_removeClientFromAllRooms {st : BroadcasterState}
    (h : RoomsNonempty st) (c : ClientId) :
    RoomsNonempty (removeClientFromAllRooms st c) := by
  intro k r hr
  exact roomsNonempty_foldl_removeFromRoomKey c (st.subscriptions c) st h k r hr

lemma roomsNonempty_applyBroadcasterOp {st : BroadcasterState}
    (h : RoomsNonempty st) (op : BroadcasterOp) :
    RoomsNonempty (applyBroadcasterOp st op) := by
  cases op with
  | join c s => exact roomsNonempty_addClientToRoom h c s
  | leave c s => exact roomsNonempty_removeClientFromRoom h c s
  | leaveAll c => exact roomsNonempty_removeClientFromAllRooms h c

lemma roomsNonempty_foldl_ops :
    ∀ (ops : List BroadcasterOp) (st : BroadcasterState), RoomsNonempty st →
      RoomsNonempty (ops.foldl applyBroadcasterOp st)
  | [], _, h => h
  | op :: ops, _, h =>
      roomsNonempty_foldl_ops ops _ (roomsNonempty_applyBroadcasterOp h op)

lemma length_foldl_aggregatorOps :
    ∀ (ops : List AggregatorOp) (w : List Candle), w.length ≤ MAX_1M_CANDLES →
      (ops.foldl applyAggregatorOp w).length ≤ MAX_1M_CANDLES
  | [], _, h => h
  | op :: ops, w, h => by
      apply length_foldl_aggregatorOps ops
      cases op with
      | ingest c => exact length_updateWindow w c h
      | init cs => exact length_initWindow cs

lemma aggregateCandles_of_timeSorted {l : List Candle} (h : TimeSorted l)
    (hne : l ≠ []) (startTime : Int) :
    aggregateCandles l startTime =
      { time := startTime
        open_ := (l.head hne).open_
        high := listMax (l.map Candle.high)
        low := listMin (l.map Candle.low)
        close := (l.getLast hne).close
        volume := (l.map Candle.volume).sum
        quoteVolume := some ((l.map (fun c => c.quoteVolume.getD 0)).sum) } := by
  have hsort : sortByTime l = l := sortByTime_of_timeSorted h
  simp only [aggregateCandles, hsort, List.head?_eq_head hne,
    List.getLast?_eq_getLast l hne, Option.map_some', Option.getD_some]
  congr 1
  · rw [List.sum_eq_foldl, List.foldl_map]
  · rw [List.sum_eq_foldl, List.foldl_map]

/- ------------------------------------------------------------------ -/
/- Concrete fixtures for witnesses and counterexamples                 -/
/- ------------------------------------------------------------------ -/

/-- A minimal well-formed candle at a given time. -/
def candleAt (t : Int) : Candle :=
  { time := t, open_ := 1, high := 2, low := 0, close := 1, volume := 1,
    quoteVolume := none }

/-- A second candle shape at a given time, with different OHLCV values. -/
def candleAtB (t : Int) : Candle :=
  { time := t, open_ := 2, high := 3, low := 1, close := 2, volume := 2,
    quoteVolume := some 4 }

/-- Aggregator state holding the given window under "BTC/USDT". -/
def windowBTC (w : List Candle) : AggregatorState :=
  fun s => if s = "BTC/USDT" then w else []

/-- State whose "BTC/USDT" window is the single candle at t = 60000. -/
def stTail60 : AggregatorState := windowBTC [candleAt 60000]

/-- First 1m candle of the spec's aggregation scenario (10:00 UTC). -/
def s2a : Candle :=
  { time := 36000000, open_ := 10, high := 12, low := 9, close := 11,
    volume := 5, quoteVolume := none }

/-- Second 1m candle of the spec's aggregation scenario (10:01 UTC). -/
def s2b : Candle :=
  { time := 36060000, open_ := 11, high := 15, low := 10, close := 14,
    volume := 3, quoteVolume := some 2 }

/-- Aggregator state for the spec's aggregation scenario. -/
def stS2 : AggregatorState := windowBTC [s2a, s2b]

/-- The (BTC/USDT, 1m) subscription. -/
def subBTC1m : Subscription := { symbol := "BTC/USDT", interval := "1m" }

/-- The room produced by client 1 joining (BTC/USDT, 1m). -/
def roomBTC1m : Room :=
  { key := "BTC/USDT:1m", subscription := subBTC1m, clients := [1],
    currentCandle := none, lastBroadcast := 0 }

/-- Broadcaster state after client 1 joins (BTC/USDT, 1m). -/
def stRooms1 : BroadcasterState := addClientToRoom emptyBroadcaster 1 subBTC1m

/- ------------------------------------------------------------------ -/
/- Claims                                                              -/
/- ------------------------------------------------------------------ -/

/-- C1 (counterexample): the claim says that a 1m candle whose time is
strictly less than the tail's time is rejected and the window is left
unchanged. That is false: with the window `[candleAt 60000]` (tail time
60000), ingesting a candle at time 0 changes the window (the candle is
appended). -/
theorem out_of_order_rejected_counterexample :
    (getOneMinuteCandles stTail60 "BTC/USDT").getLast? = some (candleAt 60000) ∧
    (candleAt 0).time < (candleAt 60000).time ∧
    getOneMinuteCandles (processOneMinuteCandle stTail60 "BTC/USDT" (candleAt 0))
        "BTC/USDT"
      ≠ getOneMinuteCandles stTail60 "BTC/USDT" := by
  decide

/-- C1 (amended): `processOneMinuteCandle` does not reject out-of-order
candles. An ingested 1m candle whose time is strictly less than the tail's
time is simply appended to the window (with the head shifted off when the
window would exceed `MAX_1M_CANDLES`); no failure is raised or
propagated. -/
theorem out_of_order_appended (st : AggregatorState) (symbol : String)
    (candle tail : Candle)
    (hl : (getOneMinuteCandles st symbol).getLast? = some tail)
    (hlt : candle.time < tail.time) :
    getOneMinuteCandles (processOneMinuteCandle st symbol candle) symbol =
      (if MAX_1M_CANDLES < ((st symbol) ++ [candle]).length
       then ((st symbol) ++ [candle]).tail
       else (st symbol) ++ [candle]) := by
  have hl' : (st symbol).getLast? = some tail := hl
  have hne : ¬ (st symbol).getLast?.map Candle.time = some candle.time := by
    intro hcontra
    rw [hl'] at hcontra
    simp at hcontra
    omega
  have hst : getOneMinuteCandles (processOneMinuteCandle st symbol candle) symbol
      = updateWindow (st symbol) candle := by
    simp [getOneMinuteCandles, processOneMinuteCandle]
  rw [hst]
  unfold updateWindow
  rw [if_neg hne]

/-- C1 (witness for the amended theorem at concrete inputs). -/
theorem out_of_order_appended_witness :
    getOneMinuteCandles (processOneMinuteCandle stTail60 "BTC/USDT" (candleAt 0))
        "BTC/USDT"
      = (if MAX_1M_CANDLES < ((stTail60 "BTC/USDT") ++ [candleAt 0]).length
         then ((stTail60 "BTC/USDT") ++ [candleAt 0]).tail
         else (stTail60 "BTC/USDT") ++ [candleAt 0]) :=
  out_of_order_appended stTail60 "BTC/USDT" (candleAt 0) (candleAt 60000)
    (by decide) (by decide)

/-- C2 (counterexample): the claim says that after every sequence of
ingest and initialize operations the window is at most `MAX_1M_CANDLES`
long and its times are non-decreasing. The length bound holds, but the
monotonicity does not: ingesting a candle at time 60000 and then one at
time 0 leaves the window `[candleAt 60000, candleAt 0]`, whose times
decrease. -/
theorem window_invariant_counterexample :
    ¬ ((runWindow [.ingest (candleAt 60000), .ingest (candleAt 0)]).length
          ≤ MAX_1M_CANDLES ∧
       TimeSorted (runWindow [.ingest (candleAt 60000), .ingest (candleAt 0)])) := by
  decide

/-- C2 (amended): after every sequence of ingest and initialize
operations the window length is at most `MAX_1M_CANDLES = 1440`;
`initializeCandles` always leaves the window sorted by time, and
`processOneMinuteCandle` preserves sortedness provided the ingested
candle's time is at least the tail's time (and trivially from the empty
window). Sortedness is not preserved for out-of-order ingests. -/
theorem window_invariant_amended :
    (∀ ops : List AggregatorOp, (runWindow ops).length ≤ MAX_1M_CANDLES) ∧
    (∀ cs : List Candle, TimeSorted (initWindow cs)) ∧
    (∀ (w : List Candle) (c tail : Candle), TimeSorted w →
      w.getLast? = some tail → tail.time ≤ c.time →
      TimeSorted (updateWindow w c)) ∧
    (∀ c : Candle, TimeSorted (updateWindow [] c)) := by
  refine ⟨?_, timeSorted_initWindow, ?_, timeSorted_updateWindow_nil⟩
  · intro ops
    exact length_foldl_aggregatorOps ops [] (by simp [MAX_1M_CANDLES])
  · intro w c tail hs hl hle
    exact timeSorted_updateWindow_of_le hs hl hle

/-- C2 (witness for the amended theorem at concrete inputs). -/
theorem window_invariant_amended_witness :
    TimeSorted (updateWindow [candleAt 0] (candleAt 60000)) :=
  window_invariant_amended.2.2.1 [candleAt 0] (candleAt 60000) (candleAt 0)
    (by decide) (by decide) (by decide)

/-- C9: ingesting two candles with the same `time` in a row yields the
same state as ingesting only the second one: the second ingest overwrites
the tail that the first one produced. Holds for every starting state,
every symbol and every pair of same-time candles. -/
theorem ingest_same_time_overwrites (st : AggregatorState) (symbol : String)
    (c1 c2 : Candle) (h : c1.time = c2.time) :
    processOneMinuteCandle (processOneMinuteCandle st symbol c1) symbol c2
      = processOneMinuteCandle st symbol c2 := by
  funext s
  by_cases hs : s = symbol
  · subst hs
    simp only [processOneMinuteCandle, if_pos rfl]
    exact updateWindow_same_time (st s) c1 c2 h
  · simp [processOneMinuteCandle, hs]

/-- C3 (counterexample): the claim says `getAggregatedCandle` returns
absent whenever the window has no 1m candle in the bar containing "now",
including for interval "1m". False for "1m": with the window holding only
a candle at time 0 and now = 600000 (bar [600000, 660000)), no window
candle is in the current bar, yet the aggregator returns the tail
candle. -/
theorem current_absent_counterexample :
    INTERVAL_TO_MS "1m" = some 60000 ∧
    (∀ c ∈ getOneMinuteCandles (windowBTC [candleAt 0]) "BTC/USDT",
      inCurrentInterval (getIntervalStart 600000 60000) 60000 c = false) ∧
    getAggregatedCandle (windowBTC [candleAt 0]) "BTC/USDT" "1m" 600000
      = some (candleAt 0) := by
  decide

/-- C3 (amended): for every supported interval other than "1m",
`getAggregatedCandle` returns absent when no window candle lies in the
bar containing "now". For "1m" the bar is ignored: the (possibly stale)
tail candle is returned, and the result is absent exactly when the
window is empty. -/
theorem current_absent_amended (st : AggregatorState) (symbol : String)
    (now : Int) :
    (getAggregatedCandle st symbol "1m" now = none ↔ st symbol = []) ∧
    (∀ interval intervalMs, interval ≠ "1m" →
      INTERVAL_TO_MS interval = some intervalMs →
      (∀ c ∈ st symbol,
        inCurrentInterval (getIntervalStart now intervalMs) intervalMs c = false) →
      getAggregatedCandle st symbol interval now = none) := by
  constructor
  · simp [getAggregatedCandle, List.getLast?_eq_none_iff]
  · intro interval intervalMs hne hims hall
    simp only [getAggregatedCandle, if_neg hne, hims]
    have hfilter : currentBarCandles st symbol now intervalMs = [] := by
      unfold currentBarCandles
      exact List.filter_eq_nil_iff.mpr (by intro a ha; simp [hall a ha])
    rw [hfilter]
    simp

/-- C3 (witness for the amended theorem at concrete inputs). -/
theorem current_absent_amended_witness :
    getAggregatedCandle (windowBTC [candleAt 0]) "BTC/USDT" "5m" 600000 = none :=
  (current_absent_amended (windowBTC [candleAt 0]) "BTC/USDT" 600000).2
    "5m" 300000 (by decide) (by decide) (by decide)

/-- C4: for every interval other than "1m" with an entry in
`INTERVAL_TO_MS`, when the (time-sorted) window has at least one candle
in the bar containing "now", `getAggregatedCandle` returns a candle whose
`time` is the bar start, `open` is the open of the earliest contributing
candle, `close` the close of the latest, `high`/`low` the extrema across
contributors and `volume` the sum of their volumes; the head and last of
the contributor list are genuinely earliest and latest, and the extrema
are attained. -/
theorem aggregated_candle_spec (st : AggregatorState) (symbol interval : String)
    (now intervalMs : Int) (hne : interval ≠ "1m")
    (hims : INTERVAL_TO_MS interval = some intervalMs)
    (hsorted : TimeSorted (st symbol))
    (hcontrib : currentBarCandles st symbol now intervalMs ≠ []) :
    getAggregatedCandle st symbol interval now = some
      { time := getIntervalStart now intervalMs
        open_ := ((currentBarCandles st symbol now intervalMs).head hcontrib).open_
        high := listMax ((currentBarCandles st symbol now intervalMs).map Candle.high)
        low := listMin ((currentBarCandles st symbol now intervalMs).map Candle.low)
        close := ((currentBarCandles st symbol now intervalMs).getLast hcontrib).close
        volume := ((currentBarCandles st symbol now intervalMs).map Candle.volume).sum
        quoteVolume := some (((currentBarCandles st symbol now intervalMs).map
          (fun c => c.quoteVolume.getD 0)).sum) } ∧
    (∀ a ∈ currentBarCandles st symbol now intervalMs,
      ((currentBarCandles st symbol now intervalMs).head hcontrib).time ≤ a.time ∧
      a.time ≤ ((currentBarCandles st symbol now intervalMs).getLast hcontrib).time ∧
      a.high ≤ listMax ((currentBarCandles st symbol now intervalMs).map Candle.high) ∧
      listMin ((currentBarCandles st symbol now intervalMs).map Candle.low) ≤ a.low) ∧
    listMax ((currentBarCandles st symbol now intervalMs).map Candle.high)
      ∈ (currentBarCandles st symbol now intervalMs).map Candle.high ∧
    listMin ((currentBarCandles st symbol now intervalMs).map Candle.low)
      ∈ (currentBarCandles st symbol now intervalMs).map Candle.low := by
  have hfs : TimeSorted (currentBarCandles st symbol now intervalMs) :=
    List.Pairwise.sublist (List.filter_sublist _) hsorted
  have hwne : st symbol ≠ [] := by
    intro e
    apply hcontrib
    simp [currentBarCandles, e]
  have hmapne : ∀ f : Candle → Int,
      (currentBarCandles st symbol now intervalMs).map f ≠ [] := by
    intro f e
    apply hcontrib
    simpa using e
  refine ⟨?_, ?_, listMax_mem _ (hmapne _), listMin_mem _ (hmapne _)⟩
  · have hpath : getAggregatedCandle st symbol interval now
        = some (aggregateCandles (currentBarCandles st symbol now intervalMs)
            (getIntervalStart now intervalMs)) := by
      simp only [getAggregatedCandle, if_neg hne, hims]
      rw [if_neg (by simpa [List.isEmpty_iff] using hwne),
          if_neg (by simpa [List.isEmpty_iff] using hcontrib)]
    rw [hpath, aggregateCandles_of_timeSorted hfs hcontrib]
  · intro a ha
    refine ⟨head_time_le_of_timeSorted hfs hcontrib a ha, ?_, ?_, ?_⟩
    · exact time_le_getLast_of_timeSorted hfs
        (List.getLast?_eq_getLast _ hcontrib) a ha
    · exact le_listMax _ _ (List.mem_map_of_mem Candle.high ha)
    · exact listMin_le _ _ (List.mem_map_of_mem Candle.low ha)

/-- C4 (witness): the spec's aggregation scenario, with a window holding
the 10:00 and 10:01 1m candles and "now" at 10:02, aggregated at "5m". -/
theorem aggregated_candle_spec_witness :
    getAggregatedCandle stS2 "BTC/USDT" "5m" 36120000
      = some { time := 36000000, open_ := 10, high := 15, low := 9,
               close := 14, volume := 8, quoteVolume := some 2 } := by
  have h := (aggregated_candle_spec stS2 "BTC/USDT" "5m" 36120000 300000
    (by decide) (by decide) (by decide) (by decide)).1
  rw [h]
  decide

/-- C5 (counterexample): the claim says the aggregate's `quoteVolume` is
absent when it is absent on every contributing candle. False: aggregating
a single candle with no `quoteVolume` yields `some 0`, never absent
(`reduce((sum, c) => sum + (c.quoteVolume || 0), 0)` always produces a
number). -/
theorem quoteVolume_absent_counterexample :
    (∀ c ∈ [candleAt 0], c.quoteVolume = none) ∧
    (aggregateCandles [candleAt 0] 0).quoteVolume = some 0 := by
  decide

/-- C5 (amended): the aggregate's `quoteVolume` is always present; it
equals the sum of the contributors' `quoteVolume`s with absent values
counted as 0 (in particular `some 0`, not absent, when every contributor
lacks one). -/
theorem quoteVolume_always_present (candles : List Candle) (startTime : Int) :
    (aggregateCandles candles startTime).quoteVolume
      = some ((candles.map (fun c => c.quoteVolume.getD 0)).sum) := by
  have hperm : ((sortByTime candles).map (fun c => c.quoteVolume.getD 0)).sum
      = (candles.map (fun c => c.quoteVolume.getD 0)).sum :=
    List.Perm.sum_eq ((sortByTime_perm candles).map _)
  have hfold : ((sortByTime candles).map (fun c => c.quoteVolume.getD 0)).sum
      = (sortByTime candles).foldl (fun sum c => sum + c.quoteVolume.getD 0) 0 := by
    rw [List.sum_eq_foldl, List.foldl_map]
  show some ((sortByTime candles).foldl (fun sum c => sum + c.quoteVolume.getD 0) 0) = _
  rw [← hfold, hperm]

/-- C6: `initializeCandles` followed by `getOneMinuteCandles` yields
exactly the last `min(|S|, MAX_1M_CANDLES)` elements of S sorted by time
(`sortByTime` permutes S and is sorted), and re-initializing with the
same input is idempotent. -/
theorem initialize_then_window (st : AggregatorState) (symbol : String)
    (S : List Candle) :
    getOneMinuteCandles (initializeCandles st symbol S) symbol
      = (sortByTime S).drop (S.length - min S.length MAX_1M_CANDLES) ∧
    (sortByTime S).Perm S ∧
    TimeSorted (sortByTime S) ∧
    initializeCandles (initializeCandles st symbol S) symbol S
      = initializeCandles st symbol S := by
  refine ⟨?_, sortByTime_perm S, timeSorted_sortByTime S, ?_⟩
  · have h1 : getOneMinuteCandles (initializeCandles st symbol S) symbol
        = initWindow S := by
      simp [getOneMinuteCandles, initializeCandles]
    rw [h1]
    simp only [initWindow, length_sortByTime]
  · funext s
    by_cases hs : s = symbol
    · simp [initializeCandles, hs]
    · simp [initializeCandles, hs]

/-- C7 (counterexample): the claim says a provided `initialBars` is
clamped into [1, 1000]. False: `handleSubscribe` passes the value through
unchanged, so `initialBars = 5000` reaches the history fetch as 5000. -/
theorem initialBars_clamp_counterexample :
    handleSubscribe { symbol := "BTC/USDT", interval := "1m", initialBars := some 5000 }
      = SubscribeAction.joinAndFetch "BTC/USDT" "1m" 5000 ∧
    ¬ ((5000 : Int) ≤ 1000) := by
  decide

/-- C7 (amended): `initialBars` defaults to 100 when omitted; any
provided value is passed to the history fetch unchanged (no clamping).
The handler itself is total: invalid interval or symbol yield an error
reply rather than a crash. -/
theorem initialBars_passthrough (m : SubscribeMessage)
    (hi : VALID_INTERVALS.contains m.interval = true)
    (hs : m.symbol = "BTC/USDT") :
    handleSubscribe m
      = SubscribeAction.joinAndFetch m.symbol m.interval (m.initialBars.getD 100) ∧
    (m.initialBars = none →
      handleSubscribe m = SubscribeAction.joinAndFetch m.symbol m.interval 100) := by
  have hi' : m.interval ∈ VALID_INTERVALS := by simpa using hi
  constructor
  · simp [handleSubscribe, hi', hs]
  · intro hnone
    simp [handleSubscribe, hi', hs, hnone]

/-- C7 (witness for the amended theorem at concrete inputs). -/
theorem initialBars_passthrough_witness :
    handleSubscribe { symbol := "BTC/USDT", interval := "5m", initialBars := none }
      = SubscribeAction.joinAndFetch "BTC/USDT" "5m" 100 :=
  (initialBars_passthrough
    { symbol := "BTC/USDT", interval := "5m", initialBars := none }
    (by decide) (by decide)).1

/-- C9 (witness at concrete inputs). -/
theorem ingest_same_time_overwrites_witness :
    processOneMinuteCandle
        (processOneMinuteCandle stTail60 "BTC/USDT" (candleAt 120000))
        "BTC/USDT" (candleAtB 120000)
      = processOneMinuteCandle stTail60 "BTC/USDT" (candleAtB 120000) :=
  ingest_same_time_overwrites stTail60 "BTC/USDT" (candleAt 120000)
    (candleAtB 120000) (by decide)

/-- C8: after any sequence of join / leave / leaveAll operations from the
empty broadcaster, every registered room has a non-empty client set;
moreover a join always leaves the room for its key registered, and a
leave by a room's only client deletes the room from the registry. -/
theorem room_registry_invariant :
    (∀ (ops : List BroadcasterOp) (k : String) (r : Room),
      (runBroadcasterOps ops).rooms k = some r → r.clients ≠ []) ∧
    (∀ (st : BroadcasterState) (c : ClientId) (sub : Subscription),
      ((addClientToRoom st c sub).rooms (getRoomKey sub)).isSome = true) ∧
    (∀ (st : BroadcasterState) (c : ClientId) (sub : Subscription) (r : Room),
      st.rooms (getRoomKey sub) = some r → r.clients = [c] →
      (removeClientFromRoom st c sub).rooms (getRoomKey sub) = none) := by
  refine ⟨?_, ?_, ?_⟩
  · intro ops k r hr
    have hinit : RoomsNonempty emptyBroadcaster := by
      intro k' r' h'
      cases h'
    exact roomsNonempty_foldl_ops ops emptyBroadcaster hinit k r hr
  · intro st c sub
    simp [addClientToRoom]
  · intro st c sub r hr hc
    simp [removeClientFromRoom, hr, hc, setDelete]

/-- C8 (witness): applying the invariant after a single concrete join. -/
theorem room_registry_invariant_witness : roomBTC1m.clients ≠ [] :=
  room_registry_invariant.1 [BroadcasterOp.join 1 subBTC1m] "BTC/USDT:1m"
    roomBTC1m (by decide)

/-- C10: `updateRoomCandle` never touches the clients' subscription sets;
a key with no registered room stays unregistered; a room whose
subscription symbol differs from the refreshed symbol is unchanged; a
matching room is unchanged (keeping its possibly stale `currentCandle`)
when the aggregator returns absent, and when the aggregator returns a
candle only the `currentCandle` field is replaced. -/
theorem updateRoomCandle_frame (st : BroadcasterState) (agg : AggregatorState)
    (now : Int) (symbol : String) :
    (updateRoomCandle st agg now symbol).subscriptions = st.subscriptions ∧
    (∀ k, st.rooms k = none →
      (updateRoomCandle st agg now symbol).rooms k = none) ∧
    (∀ k room, st.rooms k = some room →
      (room.subscription.symbol ≠ symbol →
        (updateRoomCandle st agg now symbol).rooms k = some room) ∧
      (room.subscription.symbol = symbol →
        (getAggregatedCandle agg symbol room.subscription.interval now = none →
          (updateRoomCandle st agg now symbol).rooms k = some room) ∧
        (∀ c, getAggregatedCandle agg symbol room.subscription.interval now = some c →
          (updateRoomCandle st agg now symbol).rooms k
            = some { room with currentCandle := some c }))) := by
  refine ⟨rfl, ?_, ?_⟩
  · intro k hk
    simp [updateRoomCandle, hk]
  · intro k room hk
    refine ⟨?_, ?_⟩
    · intro hsym
      simp [updateRoomCandle, hk, hsym]
    · intro hsym
      refine ⟨?_, ?_⟩
      · intro hnone
        simp [updateRoomCandle, hk, hsym, hnone]
      · intro c hc
        simp [updateRoomCandle, hk, hsym, hc]

/-- C10 (witness): refreshing "BTC/USDT" on the one-room registry with an
aggregator whose "1m" current candle is the tail at t = 60000. -/
theorem updateRoomCandle_frame_witness :
    (updateRoomCandle stRooms1 stTail60 0 "BTC/USDT").rooms "BTC/USDT:1m"
      = some { roomBTC1m with currentCandle := some (candleAt 60000) } :=
  (((updateRoomCandle_frame stRooms1 stTail60 0 "BTC/USDT").2.2 "BTC/USDT:1m"
      roomBTC1m (by decide)).2 (by decide)).2 (candleAt 60000) (by decide)

end Backend
